import Mathlib

/-!
# Verification of the profile extraction engine

Shallow embedding of `extractBasicInfo` (and its helper `reflowText`) from
`src/frontend/src/app/api/v1/profiles/upload/route.ts`.  Text is modelled as
`List Char`; every JS string operation and regular expression used by the
source is translated into an executable Lean function, and the claims of the
specification are settled against the resulting definitions.
-/

set_option maxRecDepth 4096

/-- Text / strings are modelled as lists of characters. -/
abbrev Str := List Char

/-- Coerce a Lean string literal to the `List Char` model. -/
def s2l (s : String) : Str := s.data

/-- JavaScript whitespace characters (the ASCII / Latin-1 set that can occur
here): space, tab, line feed, carriage return, vertical tab, form feed and
no-break space.  Used for `trim`, `\s` and `split(/\s+/)`. -/
def isJsWs (c : Char) : Bool :=
  c = ' ' || c = '\t' || c = '\n' || c = '\r' || c = '\x0b' || c = '\x0c' || c = '\xa0'

/-- JS `String.prototype.trim()`: drop leading and trailing whitespace. -/
def jsTrim (l : Str) : Str :=
  ((l.dropWhile isJsWs).reverse.dropWhile isJsWs).reverse

/-- Helper for `splitLines`: `acc` holds the current segment reversed. -/
def splitLinesAux : Str → Str → List Str
  | [], acc => [acc.reverse]
  | c :: rest, acc =>
    if c = '\n' then acc.reverse :: splitLinesAux rest []
    else splitLinesAux rest (c :: acc)

/-- JS `text.split("\n")`: split into segments at each newline,
keeping empty segments. -/
def splitLines (text : Str) : List Str := splitLinesAux text []

/-- Helper for `splitWs`: `acc` is the current segment reversed, `inWs` is
true while inside a whitespace run that has already emitted its segment. -/
def splitWsAux : Str → Str → Bool → List Str
  | [], acc, _ => [acc.reverse]
  | c :: rest, acc, inWs =>
    if isJsWs c then
      if inWs then splitWsAux rest acc true
      else acc.reverse :: splitWsAux rest [] true
    else splitWsAux rest (c :: acc) false

/-- JS `line.split(/\s+/)`: split at each maximal run of whitespace
(a leading run produces an initial empty segment, a trailing run a final
empty segment, exactly as in JS). -/
def splitWs (l : Str) : List Str := splitWsAux l [] false

/-- Case-insensitive literal: strip `pat` (ASCII case folded) from the front
of `l`, returning the remainder. -/
def ciPre (pat : Str) (l : Str) : Option Str :=
  match pat, l with
  | [], r => some r
  | _ :: _, [] => none
  | p :: ps, c :: cs => if p.toLower = c.toLower then ciPre ps cs else none

/-- Pattern `X+` for a character class: requires at least one `p` character, then
consumes the maximal run (the classes adjacent in the source regexes are
disjoint, so the maximal-run reading is exact). -/
def plusRun (p : Char → Bool) (l : Str) : Option Str :=
  match l with
  | c :: _ => if p c then some (l.dropWhile p) else none
  | [] => none

/-- The pagination-noise test `/^Page\s+\d+\s+of\s+\d+$/i.test(l)`
(route.ts line 33). -/
def isPageLine (l : Str) : Bool :=
  ((((((ciPre (s2l "Page") l).bind (plusRun isJsWs)).bind
      (plusRun Char.isDigit)).bind (plusRun isJsWs)).bind
      (ciPre (s2l "of"))).bind (plusRun isJsWs)).bind (plusRun Char.isDigit)
    = some []

/-- The line normalizer (route.ts lines 30-33):
`text.split("\n").map(trim).filter(Boolean)` followed by removal of
"Page X of Y" lines. -/
def cleanLines (text : Str) : List Str :=
  (((splitLines text).map jsTrim).filter (fun l => !l.isEmpty)).filter
    (fun l => !isPageLine l)

/-- JS `Array.prototype.findIndex` with an exact-equality predicate
(route.ts line 36): index of the first line equal to `k`, `-1` if none. -/
def findIdxI (k : Str) : List Str → Int
  | [] => -1
  | l :: rest =>
    if l = k then 0
    else if findIdxI k rest < 0 then -1 else findIdxI k rest + 1

/-- JS `clean[i]`: list indexing that yields the empty string out of bounds
(the source only tests truthiness of out-of-bounds reads, and in-bounds lines
are never empty, so `[]` faithfully plays the role of `undefined`). -/
def getLine (clean : List Str) (i : Int) : Str :=
  if i < 0 then [] else clean.getD i.toNat []

/-! ## Contact extractor (route.ts lines 46-47)

`emailMatch = text.match(/\b[A-Za-z0-9._%+-]+@[A-Za-z0-9.-]+\.[A-Z|a-z]{2,}\b/)`
`phoneMatch = text.match(/(\+?\d[\d\s.()-]{7,}\d)/)`

Both are translated as leftmost-first-match scanners with the greedy /
backtracking behaviour of the concrete patterns.  (The `locationMatch` on
line 48 of the source is computed but never used, so it is not modelled.) -/

/-- JS `\w`: ASCII letters, digits and underscore. -/
def isWordChar (c : Char) : Bool := c.isAlpha || c.isDigit || c = '_'

/-- Whether the (optional) character is a word character; `none` (start or
end of input) counts as a non-word position for `\b`. -/
def wordB (o : Option Char) : Bool :=
  match o with
  | some c => isWordChar c
  | none => false

/-- A `\b` word boundary sits between two positions of different word-ness. -/
def isBoundaryB (a b : Option Char) : Bool := wordB a != wordB b

/-- The email local-part class `[A-Za-z0-9._%+-]`. -/
def emailLocalChar (c : Char) : Bool :=
  c.isAlpha || c.isDigit || c = '.' || c = '_' || c = '%' || c = '+' || c = '-'

/-- The email domain class `[A-Za-z0-9.-]`. -/
def emailDomainChar (c : Char) : Bool :=
  c.isAlpha || c.isDigit || c = '.' || c = '-'

/-- The TLD class `[A-Z|a-z]` (the source class literally contains `|`). -/
def tldChar (c : Char) : Bool := c.isAlpha || c = '|'

/-- Greedy `{2,}` followed by `\b`: the largest `m` with `2 ≤ m ≤ |t|` such
that a word boundary separates the `m`-th consumed character from what
follows it (`next` is the first character after the whole run `t`).
`consumed` counts characters already taken, `lastC` is the last of them. -/
def tldTakeAux (consumed : Nat) (lastC : Option Char) : Str → Option Char → Option Nat
  | [], next =>
    if 2 ≤ consumed && isBoundaryB lastC next then some consumed else none
  | c :: rest, next =>
    match tldTakeAux (consumed + 1) (some c) rest next with
    | some m => some m
    | none => if 2 ≤ consumed && isBoundaryB lastC (some c) then some consumed else none

/-- Pattern `[A-Z|a-z]{2,}\b` applied greedily to the TLD-character run `t` whose
successor character is `next`: the matched part of `t`, if any. -/
def emailTld (t : Str) (next : Option Char) : Option Str :=
  (tldTakeAux 0 none t next).map t.take

/-- Backtracking for `[A-Za-z0-9.-]+\.[A-Z|a-z]{2,}\b`: the `+` consumes as
much of the domain run as possible; at each `.` inside the run (latest dot
first, i.e. greedy) the TLD part is tried on what follows (`rest3` is the
text after the whole domain run — the TLD class also matches `|`, which the
domain class does not).  Returns the full matched domain string. -/
def domainAux (consumed : Str) : Str → Str → Option Str
  | [], _ => none
  | c :: rest, rest3 =>
    match domainAux (consumed ++ [c]) rest rest3 with
    | some ans => some ans
    | none =>
      if c = '.' && !consumed.isEmpty then
        match emailTld ((rest ++ rest3).takeWhile tldChar)
            ((rest ++ rest3).dropWhile tldChar).head? with
        | some tl => some (consumed ++ '.' :: tl)
        | none => none
      else none

/-- Attempt the full email pattern at the current position (`prev` is the
character immediately before it, for the leading `\b`). -/
def matchEmailAt (prev : Option Char) (l : Str) : Option Str :=
  match l with
  | [] => none
  | c0 :: _ =>
    if !emailLocalChar c0 then none
    else if !isBoundaryB prev (some c0) then none
    else
      let locPart := l.takeWhile emailLocalChar
      match l.dropWhile emailLocalChar with
      | '@' :: rest2 =>
        (domainAux [] (rest2.takeWhile emailDomainChar)
            (rest2.dropWhile emailDomainChar)).map (fun d => locPart ++ '@' :: d)
      | _ => none

/-- Leftmost-match scan for the email pattern. -/
def findEmailAux (prev : Option Char) : Str → Option Str
  | [] => none
  | c :: rest =>
    match matchEmailAt prev (c :: rest) with
    | some m => some m
    | none => findEmailAux (some c) rest

/-- Translation of `text.match(/\b[A-Za-z0-9._%+-]+@[A-Za-z0-9.-]+\.[A-Z|a-z]{2,}\b/)`:
the first matched substring, if any (route.ts line 46). -/
def findEmail (text : Str) : Option Str := findEmailAux none text

/-- The phone body class `[\d\s.()-]`. -/
def phoneClassChar (c : Char) : Bool :=
  c.isDigit || isJsWs c || c = '.' || c = '(' || c = ')' || c = '-'

/-- The longest prefix of `l` that ends in a digit (`none` if `l` has no
digit).  `[\d\s.()-]{7,}\d` with a greedy `{7,}` consumes exactly the longest
class-run prefix ending in a digit, provided it has length at least 8 —
digits belong to the class, so the final `\d` always comes from backtracking
the run by one. -/
def lastDigitCut : Str → Option Str
  | [] => none
  | c :: rest =>
    match lastDigitCut rest with
    | some p => some (c :: p)
    | none => if c.isDigit then some [c] else none

/-- Attempt `\d[\d\s.()-]{7,}\d` at the current position. -/
def matchPhoneCore (l : Str) : Option Str :=
  match l with
  | c :: rest =>
    if c.isDigit then
      match lastDigitCut (rest.takeWhile phoneClassChar) with
      | some p => if 8 ≤ p.length then some (c :: p) else none
      | none => none
    else none
  | [] => none

/-- Leftmost-match scan for `\+?\d[\d\s.()-]{7,}\d` (a leading `+` is
consumed when present; if the rest then fails, `\d` cannot match `+`, so the
position fails altogether). -/
def findPhoneAux : Str → Option Str
  | [] => none
  | c :: rest =>
    match (if c = '+' then (matchPhoneCore rest).map (fun m => '+' :: m)
           else matchPhoneCore (c :: rest)) with
    | some m => some m
    | none => findPhoneAux rest

/-- Translation of `text.match(/(\+?\d[\d\s.()-]{7,}\d)/)`: the first matched substring,
if any (route.ts line 47). -/
def findPhone (text : Str) : Option Str := findPhoneAux text

/-! ## Data model (the shape of the object returned at route.ts lines 252-262) -/

/-- One job entry of the Experience section. -/
structure ExperienceEntry where
  title : Str
  company : Str
  start_date : Str
  end_date : Str
  location : Option Str
  description : Option Str
deriving DecidableEq, Repr

/-- One school entry of the Education section. -/
structure EducationEntry where
  school : Str
  degree : Option Str
deriving DecidableEq, Repr

/-- The extraction result (`undefined` fields become `none`). -/
structure ExtractedProfile where
  name : Option Str
  email : Option Str
  phone : Option Str
  location : Option Str
  headline : Option Str
  summary : Option Str
  skills : List Str
  experience : List ExperienceEntry
  education : List EducationEntry
deriving DecidableEq, Repr

/-! ## Identity & headline resolver (route.ts lines 55-122) -/

/-- Integer range `[a, a+1, ..., b-1]`. -/
def intRange (a b : Int) : List Int :=
  (List.range (b - a).toNat).map (fun k => a + k)

/-- Test `/^[A-Z][a-z]+$/.test(l)`: one capitalized lower-case word filling the
whole line. -/
def isCityWord (l : Str) : Bool :=
  match l with
  | c :: rest => c.isUpper && !rest.isEmpty && rest.all Char.isLower
  | [] => false

/-- The location-shape test applied both at route.ts line 66 and line 110:
`l.length < 50 && !l.includes("|") && (l.includes(",") || /^[A-Z][a-z]+$/)`. -/
def locLineTest (l : Str) : Bool :=
  l.length < 50 && !l.contains '|' && (l.contains ',' || isCityWord l)

/-- Substring containment, JS `String.prototype.includes`. -/
def containsSub (pat : Str) : Str → Bool
  | [] => pat.isEmpty
  | c :: rest => (pat.isPrefixOf (c :: rest)) || containsSub pat rest

/-- Predicate `isPersonName` (route.ts lines 75-83). -/
def isPersonName (line : Str) : Bool :=
  if line.length > 40 || line.length < 2 then false
  else if line.contains '|' || line.contains '@' || line.contains '(' ||
      line.contains ':' then false
  else if line.any Char.isDigit then false
  else
    let words := splitWs line
    if words.length < 1 || words.length > 5 then false
    else words.all (fun w =>
      match w with
      | c :: _ => c.isUpper
      | [] => false)

/-- The headline-shape cross-check on the line after a name candidate
(route.ts line 91): contains `|`, contains `" at "`, contains `@`, or is
longer than 40 characters. -/
def isHeadlineLike (l : Str) : Bool :=
  l.contains '|' || containsSub (s2l " at ") l || l.contains '@' || l.length > 40

/-- Value `nameSearchEnd` (route.ts line 58): the Summary anchor if positive, else
the Experience anchor if positive, else the end of the stream. -/
def nameSearchEndOf (clean : List Str) (summaryIdx experienceIdx : Int) : Int :=
  if 0 < summaryIdx then summaryIdx
  else if 0 < experienceIdx then experienceIdx
  else clean.length

/-- Value `headlineEndIdx` (route.ts lines 63-69): shrink the span end by one when
the last line before it passes the location-shape test. -/
def headlineEndIdxOf (clean : List Str) (nameSearchEnd : Int) : Int :=
  if 0 ≤ nameSearchEnd - 1 then
    if !(getLine clean (nameSearchEnd - 1)).isEmpty &&
        locLineTest (getLine clean (nameSearchEnd - 1)) then
      nameSearchEnd - 1
    else nameSearchEnd
  else nameSearchEnd

/-- The backward name scan (route.ts lines 86-98): walk `i` from
`headlineEndIdx - 1` down to `max 0 (headlineEndIdx - 15)`, accepting the
first person-name line whose immediate successor (still inside the span)
looks like a headline.  Returns the name and `headlineStartIdx = i + 1`. -/
def nameHeadlineScan (clean : List Str) (headlineEndIdx : Int) :
    Option (Str × Int) :=
  (((List.range 15).filterMap (fun k =>
      let i : Int := headlineEndIdx - 1 - k
      if max 0 (headlineEndIdx - 15) ≤ i then some i else none)).find?
    (fun i =>
      isPersonName (getLine clean i) &&
      decide (i + 1 < headlineEndIdx) &&
      !(getLine clean (i + 1)).isEmpty &&
      isHeadlineLike (getLine clean (i + 1)))).map
    (fun i => (getLine clean i, i + 1))

/-- Name resolution (route.ts lines 60-98): the scan only runs when the
search span is non-empty. -/
def nameAndStart (clean : List Str) (nameSearchEnd : Int) : Option (Str × Int) :=
  if 0 < nameSearchEnd then
    nameHeadlineScan clean (headlineEndIdxOf clean nameSearchEnd)
  else none

/-- Location and `headlineActualEnd` (route.ts lines 107-114): the location
is taken from the line immediately before the Summary anchor when
`summaryIdx > 0 && summaryIdx >= 2` and that line passes the location-shape
test; only in that case is the headline assembly boundary shrunk. -/
def locAndEnd (clean : List Str) (summaryIdx nameSearchEnd : Int) :
    Option Str × Int :=
  if 0 < summaryIdx ∧ 2 ≤ summaryIdx then
    if !(getLine clean (summaryIdx - 1)).isEmpty &&
        locLineTest (getLine clean (summaryIdx - 1)) then
      (some (getLine clean (summaryIdx - 1)), summaryIdx - 1)
    else (none, nameSearchEnd)
  else (none, nameSearchEnd)

/-- Join with a single separating space (JS `join(" ")`). -/
def joinSp : List Str → Str
  | [] => []
  | [x] => x
  | x :: xs => x ++ ' ' :: joinSp xs

/-- Join with a single newline (JS `join("\n")`). -/
def joinNl : List Str → Str
  | [] => []
  | [x] => x
  | x :: xs => x ++ '\n' :: joinNl xs

/-- Headline assembly (route.ts lines 116-122): all lines from
`headlineStartIdx` (exclusive bound `headlineActualEnd`) joined by spaces;
`join(" ").trim() || undefined`. -/
def headlineOf (clean : List Str) (headlineStartIdx headlineActualEnd : Int) :
    Option Str :=
  if 0 < headlineStartIdx ∧ headlineStartIdx < headlineActualEnd then
    let s := jsTrim (joinSp ((intRange headlineStartIdx headlineActualEnd).map
      (getLine clean)))
    if s.isEmpty then none else some s
  else none

/-! ## Skills extractor (route.ts lines 125-134) -/

/-- The fixed section vocabulary (route.ts line 125). -/
def sectionKeywords : List Str :=
  [s2l "Contact", s2l "Top Skills", s2l "Languages", s2l "Honors-Awards",
   s2l "Publications", s2l "Patents", s2l "Certifications", s2l "Summary",
   s2l "Experience", s2l "Education"]

/-- Skills extraction: from `topSkillsIdx + 1` up to
`min skillEnd clean.length`, stopping at the first section keyword and
keeping lines shorter than 50 characters. -/
def skillsOf (clean : List Str) (topSkillsIdx languagesIdx : Int) : List Str :=
  if 0 ≤ topSkillsIdx then
    let skillEnd := if topSkillsIdx < languagesIdx then languagesIdx
                    else topSkillsIdx + 10
    (((intRange (topSkillsIdx + 1) (min skillEnd clean.length)).map
        (getLine clean)).takeWhile (fun l => !sectionKeywords.contains l)).filter
      (fun l => decide (l.length < 50))
  else []

/-! ## Paragraph reflow engine (`reflowText`, route.ts lines 139-158) -/

/-- Test `/^[-–•▪■◦]/`: the line starts with a bullet glyph. -/
def startsBullet : Str → Bool
  | c :: _ => c = '-' || c = '–' || c = '•' || c = '▪' || c = '■' || c = '◦'
  | [] => false

/-- Test `/^(\d+[\.\)]|\([a-z]\))/`: a numbered (`1.` / `1)`) or lettered
(`(a)`) list marker at the start of the line. -/
def startsListMarker (l : Str) : Bool :=
  (!(l.takeWhile Char.isDigit).isEmpty &&
    (match l.dropWhile Char.isDigit with
     | c :: _ => c = '.' || c = ')'
     | [] => false)) ||
  (match l with
   | '(' :: c :: ')' :: _ => c.isLower
   | _ => false)

/-- Test `/^[A-Z][A-Z\s&]+:/`: an upper-case heading ending in a colon. -/
def upperHeading (l : Str) : Bool :=
  match l with
  | c :: rest =>
    c.isUpper &&
    (let cls := fun ch => ch.isUpper || isJsWs ch || ch = '&'
     !(rest.takeWhile cls).isEmpty &&
     (match rest.dropWhile cls with
      | ':' :: _ => true
      | [] => false
      | _ :: _ => false))
  | [] => false

/-- The new-paragraph decision of `reflowText` (route.ts lines 146-148):
bullet, list marker, short heading-like line ending in `:`, upper-case
heading, or a line that (still) starts with a space and is not blank. -/
def isNewParagraph (line : Str) : Bool :=
  startsBullet line || startsListMarker line ||
  (line.getLast? = some ':' && decide (line.length < 60)) ||
  upperHeading line ||
  (line.head? = some ' ' && !(jsTrim line).isEmpty)

/-- Main loop of `reflowText`: `current` is the paragraph being built; each
new-paragraph line flushes it (trimmed). -/
def reflowAux (current : Str) : List Str → List Str
  | [] => [jsTrim current]
  | line :: rest =>
    if isNewParagraph line then jsTrim current :: reflowAux line rest
    else reflowAux (current ++ ' ' :: line) rest

/-- Function `reflowText` (route.ts lines 139-158): paragraphs joined by a
newline, with an empty input producing the empty string. -/
def reflowText (pdfLines : List Str) : Str :=
  match pdfLines with
  | [] => []
  | first :: rest => jsTrim (joinNl (reflowAux first rest))

/-! ## Summary extraction (route.ts lines 161-171) -/

/-- The summary line span: from `summaryIdx + 1` up to
`min sumEnd clean.length`, stopping at a literal "Experience" or "Education"
line. -/
def summaryLinesOf (clean : List Str) (summaryIdx experienceIdx : Int) :
    List Str :=
  let sumEnd := if summaryIdx < experienceIdx then experienceIdx
                else summaryIdx + 40
  ((intRange (summaryIdx + 1) (min sumEnd clean.length)).map
    (getLine clean)).takeWhile
    (fun l => !(l = s2l "Experience" || l = s2l "Education"))

/-- The summary field: reflowed span, `|| undefined`. -/
def summaryOf (clean : List Str) (summaryIdx experienceIdx : Int) :
    Option Str :=
  if 0 ≤ summaryIdx then
    let s := reflowText (summaryLinesOf clean summaryIdx experienceIdx)
    if s.isEmpty then none else some s
  else none

/-! ## Experience segmenter (route.ts lines 174-234)

The date-range anchor pattern (route.ts line 176) is
`/^(?:\w+\s+)?\d{4}\s*-\s*(?:\w+\s+)?\d{4}|^(?:\w+\s+)?\d{4}\s*-\s*Present/i`;
both alternatives are anchored at the start of the line.  Adjacent
sub-patterns use disjoint character classes (`\w` / `\s` / `-`), so each
greedy run is deterministic; the optional `(?:\w+\s+)?` group is tried first
and the branch without it second, exactly as a backtracking engine does. -/

/-- Pattern `\d{4}`: exactly four digits, returning the remainder. -/
def takeDigits4 (l : Str) : Option Str :=
  match l with
  | a :: b :: c :: d :: rest =>
    if a.isDigit && b.isDigit && c.isDigit && d.isDigit then some rest else none
  | _ => none

/-- Group `(?:\w+\s+)`: a non-empty word run followed by a non-empty
whitespace run (both maximal — the classes are disjoint from each other and
from what follows). -/
def optWordWs (l : Str) : Option Str :=
  if (l.takeWhile isWordChar).isEmpty then none
  else
    let r1 := l.dropWhile isWordChar
    if (r1.takeWhile isJsWs).isEmpty then none
    else some (r1.dropWhile isJsWs)

/-- Try the optional group `(?:\w+\s+)?` with continuation `k`: with the
group first, then without (regex backtracking for a greedy optional). -/
def chainOptWordWs (k : Str → Bool) (l : Str) : Bool :=
  (match optWordWs l with
   | some r => k r
   | none => false) || k l

/-- Continuation for `\d{4}`. -/
def digits4Then (k : Str → Bool) (l : Str) : Bool :=
  match takeDigits4 l with
  | some r => k r
  | none => false

/-- Continuation for `\s*-\s*`. -/
def dashThen (k : Str → Bool) (l : Str) : Bool :=
  match l.dropWhile isJsWs with
  | '-' :: r2 => k (r2.dropWhile isJsWs)
  | _ => false

/-- Case-insensitive literal `Present` at the current position (the pattern
is not end-anchored). -/
def presentAt (l : Str) : Bool := (ciPre (s2l "Present") l).isSome

/-- The date-range anchor test, `dateRangePattern.test(line)`. -/
def dateRangeTest (l : Str) : Bool :=
  chainOptWordWs (digits4Then (dashThen
    (chainOptWordWs (digits4Then (fun _ => true))))) l ||
  chainOptWordWs (digits4Then (dashThen presentAt)) l

/-- Continuation `\s*-\s*([^(]+)` of the date-split regex at `l`: the
captured group 2, if the tail matches here. -/
def dateSplitCont (l : Str) : Option Str :=
  match l.dropWhile isJsWs with
  | '-' :: r2 =>
    let g2 := (r2.dropWhile isJsWs).takeWhile (fun c => c ≠ '(')
    if g2.isEmpty then none else some g2
  | _ => none

/-- Lazy scan for `/^(.+?)\s*-\s*([^(]+)/`: grow the group-1 prefix one
character at a time (`pre` holds it reversed) until the continuation
matches. -/
def dateSplitAux : Str → Str → Option (Str × Str)
  | pre, c :: rest =>
    (match dateSplitCont rest with
     | some g2 => some ((c :: pre).reverse, g2)
     | none => dateSplitAux (c :: pre) rest)
  | _, [] => none

/-- Parse of the date line `dateLine.match(/^(.+?)\s*-\s*([^(]+)/)`
(route.ts line 193): `(group1, group2)` on success. -/
def dateSplit (l : Str) : Option (Str × Str) := dateSplitAux [] l

/-- The country list used by the location look-ahead (route.ts line 203). -/
def countryList : List Str :=
  [s2l "United States", s2l "India", s2l "Singapore", s2l "Sweden",
   s2l "Germany", s2l "UK", s2l "Canada"]

/-- Test `/^[A-Z][a-z]/`: capitalized word start (route.ts line 203). -/
def startsUpperLower (l : Str) : Bool :=
  match l with
  | a :: b :: _ => a.isUpper && b.isLower
  | _ => false

/-- Description collection (route.ts lines 215-221): from `j` on, stop
before a line that is 1 or 2 positions ahead of the next date-range anchor.
`fuel` bounds the walk (it is instantiated so that it never runs out before
`expEnd`). -/
def descLinesFrom (clean : List Str) (expEnd : Int) : Int → Nat → List Str
  | _, 0 => []
  | j, fuel + 1 =>
    if j < expEnd then
      if (j + 1 < expEnd ∧ dateRangeTest (getLine clean (j + 1))) ∨
         (j + 2 < expEnd ∧ dateRangeTest (getLine clean (j + 2))) then []
      else getLine clean j :: descLinesFrom clean expEnd (j + 1) fuel
    else []

/-- Construction of one experience entry from the date anchor at `i`
(route.ts lines 184-230). -/
def mkExpEntry (clean : List Str) (experienceIdx expEnd i : Int) :
    ExperienceEntry :=
  let dateLine := getLine clean i
  let title := if experienceIdx + 2 ≤ i then getLine clean (i - 1)
               else s2l "Unknown"
  let company := if experienceIdx + 3 ≤ i then getLine clean (i - 2)
                 else if experienceIdx + 2 ≤ i then getLine clean (i - 1)
                 else s2l "Unknown"
  let dates := match dateSplit dateLine with
               | some (a, b) => (jsTrim a, jsTrim b)
               | none => (dateLine, s2l "Present")
  let locDesc :=
    if i + 1 < expEnd ∧ ¬(getLine clean (i + 1)).isEmpty ∧
        (getLine clean (i + 1)).length < 50 ∧
        ¬dateRangeTest (getLine clean (i + 1)) then
      let nextLine := getLine clean (i + 1)
      if nextLine.contains ',' ||
          countryList.any (fun c => containsSub c nextLine) ||
          startsUpperLower nextLine then
        if i + 3 < expEnd ∧ dateRangeTest (getLine clean (i + 3)) then
          ((none : Option Str), i + 1)
        else (some nextLine, i + 2)
      else (none, i + 1)
    else (none, i + 1)
  let descLines := descLinesFrom clean expEnd locDesc.2
    (expEnd - locDesc.2).toNat
  { title := if title ≠ company then title else s2l "Unknown"
    company := company
    start_date := dates.1
    end_date := dates.2
    location := locDesc.1
    description :=
      let d := reflowText descLines
      if d.isEmpty then none else some d }

/-- The date anchors of the Experience span: every index in
`(experienceIdx, expEnd)` whose line passes the date-range test.  The source
loop advances `i` by one each iteration and appends one entry per anchor, in
order. -/
def expAnchorsOf (clean : List Str) (experienceIdx expEnd : Int) : List Int :=
  (intRange (experienceIdx + 1) expEnd).filter
    (fun i => dateRangeTest (getLine clean i))

/-- The experience list before the final `slice(0, 20)` cap. -/
def experienceListOf (clean : List Str) (experienceIdx educationIdx : Int) :
    List ExperienceEntry :=
  if 0 ≤ experienceIdx then
    let expEnd := if experienceIdx < educationIdx then educationIdx
                  else (clean.length : Int)
    (expAnchorsOf clean experienceIdx expEnd).map
      (mkExpEntry clean experienceIdx expEnd)
  else []

/-! ## Education segmenter (route.ts lines 237-250) -/

/-- Test `/^\d{4}/`: the line starts with four digits. -/
def startsYear (l : Str) : Bool := (takeDigits4 l).isSome

/-- Skip lines that start with a four-digit year (route.ts line 248). -/
def skipYears (clean : List Str) : Int → Nat → Int
  | i, 0 => i
  | i, fuel + 1 =>
    if i < (clean.length : Int) ∧ ¬(getLine clean i).isEmpty ∧
        startsYear (getLine clean i) then
      skipYears clean (i + 1) fuel
    else i

/-- The stride-2 education walk (route.ts lines 241-249). `fuel` bounds the
loop; it is instantiated with `clean.length + 1`, which the walk (advancing
by at least 2 per entry) never exhausts. -/
def eduLoop (clean : List Str) : Int → Nat → List EducationEntry
  | _, 0 => []
  | i, fuel + 1 =>
    if i < (clean.length : Int) then
      let school := getLine clean i
      if school.isEmpty then []
      else
        let degree := if i + 1 < (clean.length : Int) then
                        some (getLine clean (i + 1))
                      else none
        { school := school, degree := degree } ::
          eduLoop clean (skipYears clean (i + 2) (fuel + 1)) fuel
    else []

/-- The education list before the final `slice(0, 10)` cap. -/
def educationListOf (clean : List Str) (educationIdx : Int) :
    List EducationEntry :=
  if 0 ≤ educationIdx then eduLoop clean (educationIdx + 1) (clean.length + 1)
  else []

/-! ## Profile assembler: `extractBasicInfo` (route.ts lines 29-263) -/

/-- The full extraction engine, assembled exactly as the source function
builds its return object (route.ts lines 252-262). -/
def extractBasicInfo (text : Str) : ExtractedProfile :=
  let clean := cleanLines text
  let topSkillsIdx := findIdxI (s2l "Top Skills") clean
  let languagesIdx := findIdxI (s2l "Languages") clean
  let summaryIdx := findIdxI (s2l "Summary") clean
  let experienceIdx := findIdxI (s2l "Experience") clean
  let educationIdx := findIdxI (s2l "Education") clean
  let nameSearchEnd := nameSearchEndOf clean summaryIdx experienceIdx
  let nh := nameAndStart clean nameSearchEnd
  let locEnd := locAndEnd clean summaryIdx nameSearchEnd
  { name := nh.map (fun p => p.1)
    email := findEmail text
    phone := findPhone text
    location := locEnd.1
    headline := headlineOf clean ((nh.map (fun p => p.2)).getD (-1)) locEnd.2
    summary := summaryOf clean summaryIdx experienceIdx
    skills := skillsOf clean topSkillsIdx languagesIdx
    experience := (experienceListOf clean experienceIdx educationIdx).take 20
    education := (educationListOf clean educationIdx).take 10 }

/-! ## Derived anchor accessors and concrete claim inputs -/

/-- Index of the first "Summary" line of the normalized stream (`-1` if
absent), as computed at route.ts line 41. -/
def summaryIdxOf (text : Str) : Int := findIdxI (s2l "Summary") (cleanLines text)

/-- Scenario B input: an Experience span with company, title, date range,
location and a one-line description. -/
def c1text : Str :=
  s2l "Experience\nAcme Corp\nStaff Engineer\nJanuary 2019 - Present\nRemote\nShipped the widget."

/-- Scenario A input: full sidebar, identity block, summary, experience and
education placeholders. -/
def c2text : Str :=
  s2l "Contact\nTop Skills\nPython\nReact\nLanguages\nEnglish\nJane Doe\nSenior Engineer | Builder\nSan Francisco, CA\nSummary\nBuilds things.\nExperience\n...\nEducation\n..."

/-- An input with no recognized section header, but with a name-shaped line
followed by a long line. -/
def c3text : Str :=
  s2l "John Smith\nA very long line that exceeds forty characters for sure indeed"

/-- An identity block with a location line but no Summary anchor (the span
ends at the Experience anchor). -/
def c4text : Str :=
  s2l "Jane Doe\nSenior Engineer | Builder\nSan Francisco, CA\nExperience"

/-- Text whose only phone-pattern match contains five digits. -/
def c6text : Str := s2l "1 2 3 4 5"

/-- A summary whose second body line is indented in the raw (pre-trim)
text. -/
def c7text : Str := s2l "Summary\nFirst line.\n  Indented continuation."

/-- An Experience span whose company line and title line are equal. -/
def c8text : Str := s2l "Experience\nAcme\nAcme\nJanuary 2019 - Present"

/-- An input whose Summary anchor sits at index 3, preceded by a
location-shaped line. -/
def c10text : Str := s2l "A\nB\nSan Francisco, CA\nSummary"

/-! ## Shared helper lemmas -/

/-- A `some` result of `locAndEnd` can only be the line immediately before a
Summary anchor at index at least 2. -/
theorem locAndEnd_some (clean : List Str) (summaryIdx nameSearchEnd : Int)
    (s : Str) (h : (locAndEnd clean summaryIdx nameSearchEnd).1 = some s) :
    2 ≤ summaryIdx ∧ s = getLine clean (summaryIdx - 1) := by
  unfold locAndEnd at h
  split at h
  · split at h
    · simp at h
      exact ⟨by omega, h.symm⟩
    · simp at h
  · simp at h

/-- A successful `lastDigitCut` yields a string containing a digit. -/
theorem lastDigitCut_has_digit (l : Str) : ∀ p, lastDigitCut l = some p →
    ∃ d ∈ p, d.isDigit = true := by
  induction l with
  | nil => intro p h; simp [lastDigitCut] at h
  | cons c rest ih =>
    intro p h
    simp only [lastDigitCut] at h
    cases hr : lastDigitCut rest with
    | some q =>
      rw [hr] at h
      simp only [Option.some.injEq] at h
      obtain ⟨d, hd, hdig⟩ := ih q hr
      exact ⟨d, by rw [← h]; exact List.mem_cons_of_mem _ hd, hdig⟩
    | none =>
      rw [hr] at h
      by_cases hc : c.isDigit
      · simp only [hc, if_true, Option.some.injEq] at h
        exact ⟨c, by rw [← h]; simp, hc⟩
      · simp [hc] at h

/-- Any match of the phone core pattern has length at least 9 and contains
at least two digits. -/
theorem matchPhoneCore_shape (l : Str) : ∀ s, matchPhoneCore l = some s →
    9 ≤ s.length ∧ 2 ≤ (s.filter Char.isDigit).length := by
  match l with
  | [] => intro s h; simp [matchPhoneCore] at h
  | c :: rest =>
    intro s h
    simp only [matchPhoneCore] at h
    by_cases hc : c.isDigit
    · simp only [hc, if_true] at h
      cases hp : lastDigitCut (rest.takeWhile phoneClassChar) with
      | none => rw [hp] at h; simp at h
      | some p =>
        rw [hp] at h
        by_cases hlen : 8 ≤ p.length
        · simp only [hlen, if_true, Option.some.injEq] at h
          subst h
          obtain ⟨d, hd, hdig⟩ := lastDigitCut_has_digit _ p hp
          constructor
          · simp only [List.length_cons]; omega
          · have hmem : d ∈ p.filter Char.isDigit := List.mem_filter.mpr ⟨hd, hdig⟩
            have : 1 ≤ (p.filter Char.isDigit).length :=
              List.length_pos.mpr (List.ne_nil_of_mem hmem)
            simp only [List.filter_cons, hc, if_true, List.length_cons]
            omega
        · simp [hlen] at h
    · simp [hc] at h

/-- Any match of the full phone scan has length at least 9 and contains at
least two digits. -/
theorem findPhoneAux_shape (l : Str) : ∀ s, findPhoneAux l = some s →
    9 ≤ s.length ∧ 2 ≤ (s.filter Char.isDigit).length := by
  induction l with
  | nil => intro s h; simp [findPhoneAux] at h
  | cons c rest ih =>
    intro s h
    simp only [findPhoneAux] at h
    by_cases hc : c = '+'
    · rw [if_pos hc] at h
      cases hm : matchPhoneCore rest with
      | some m =>
        rw [hm] at h
        simp only [Option.map_some', Option.some.injEq] at h
        obtain ⟨h1, h2⟩ := matchPhoneCore_shape rest m hm
        subst h
        refine ⟨by simp only [List.length_cons]; omega, ?_⟩
        have hplus : ('+' : Char).isDigit = false := by decide
        simp only [List.filter_cons, hplus, Bool.false_eq_true, if_false]
        omega
      | none => rw [hm] at h; simp only [Option.map_none'] at h; exact ih s h
    · rw [if_neg hc] at h
      cases hm : matchPhoneCore (c :: rest) with
      | some m =>
        rw [hm] at h
        simp only [Option.some.injEq] at h
        subst h
        exact matchPhoneCore_shape _ m hm
      | none => rw [hm] at h; exact ih s h

/-- A list with no occurrence of `k` has find-index `-1`. -/
theorem findIdxI_eq_neg (k : Str) (l : List Str) (h : ∀ x ∈ l, x ≠ k) :
    findIdxI k l = -1 := by
  induction l with
  | nil => rfl
  | cons a rest ih =>
    have ha : a ≠ k := h a (by simp)
    have hr : findIdxI k rest = -1 := ih (fun x hx => h x (by simp [hx]))
    simp [findIdxI, ha, hr]

/-- Enumeration of the modelled whitespace characters. -/
theorem ws_char_cases (c : Char) (h : isJsWs c = true) :
    c = ' ' ∨ c = '\t' ∨ c = '\n' ∨ c = '\r' ∨ c = '\x0b' ∨ c = '\x0c' ∨
    c = '\xa0' := by
  simp only [isJsWs, Bool.or_eq_true, decide_eq_true_eq] at h
  tauto

/-- Whitespace is not an email local-part character. -/
theorem ws_not_emailLocal (c : Char) (h : isJsWs c = true) :
    emailLocalChar c = false := by
  rcases ws_char_cases c h with rfl|rfl|rfl|rfl|rfl|rfl|rfl <;> decide

/-- Whitespace is not a digit. -/
theorem ws_not_digit (c : Char) (h : isJsWs c = true) : c.isDigit = false := by
  rcases ws_char_cases c h with rfl|rfl|rfl|rfl|rfl|rfl|rfl <;> decide

/-- Whitespace is not a plus sign. -/
theorem ws_ne_plus (c : Char) (h : isJsWs c = true) : c ≠ '+' := by
  rcases ws_char_cases c h with rfl|rfl|rfl|rfl|rfl|rfl|rfl <;> decide

/-- Dropping while a predicate holds of every element empties the list. -/
theorem dropWhile_all (p : Char → Bool) (l : Str) (h : ∀ c ∈ l, p c = true) :
    l.dropWhile p = [] := by
  induction l with
  | nil => rfl
  | cons a rest ih =>
    rw [List.dropWhile_cons, if_pos (h a (by simp))]
    exact ih (fun c hc => h c (by simp [hc]))

/-- Trimming an all-whitespace string yields the empty string. -/
theorem jsTrim_ws (l : Str) (h : ∀ c ∈ l, isJsWs c = true) : jsTrim l = [] := by
  unfold jsTrim
  rw [dropWhile_all isJsWs l h]
  rfl

/-- Splitting all-whitespace text yields all-whitespace segments. -/
theorem splitLinesAux_ws (t : Str) : ∀ acc : Str,
    (∀ c ∈ t, isJsWs c = true) → (∀ c ∈ acc, isJsWs c = true) →
    ∀ seg ∈ splitLinesAux t acc, ∀ c ∈ seg, isJsWs c = true := by
  induction t with
  | nil =>
    intro acc _ ha seg hseg c hc
    simp only [splitLinesAux, List.mem_singleton] at hseg
    subst hseg
    exact ha c (List.mem_reverse.mp hc)
  | cons a rest ih =>
    intro acc ht ha seg hseg c hc
    simp only [splitLinesAux] at hseg
    by_cases hnl : a = '\n'
    · rw [if_pos hnl] at hseg
      rcases List.mem_cons.mp hseg with h1 | h2
      · subst h1; exact ha c (List.mem_reverse.mp hc)
      · exact ih [] (fun x hx => ht x (by simp [hx])) (by simp) seg h2 c hc
    · rw [if_neg hnl] at hseg
      refine ih (a :: acc) (fun x hx => ht x (by simp [hx])) ?_ seg hseg c hc
      intro x hx
      rcases List.mem_cons.mp hx with h1 | h2
      · subst h1; exact ht x (by simp)
      · exact ha x h2

/-- The line normalizer maps all-whitespace text to the empty stream. -/
theorem cleanLines_ws (text : Str) (h : ∀ c ∈ text, isJsWs c = true) :
    cleanLines text = [] := by
  unfold cleanLines
  have hsegs := splitLinesAux_ws text [] h (by simp)
  have hfil : ((splitLines text).map jsTrim).filter (fun l => !l.isEmpty) = [] := by
    rw [List.filter_eq_nil_iff]
    intro a ha
    simp only [List.mem_map] at ha
    obtain ⟨seg, hseg, rfl⟩ := ha
    simp [jsTrim_ws seg (hsegs seg hseg)]
  rw [hfil]
  rfl

/-- The email scan finds nothing in all-whitespace text. -/
theorem findEmailAux_ws (l : Str) (h : ∀ c ∈ l, isJsWs c = true) :
    ∀ prev, findEmailAux prev l = none := by
  induction l with
  | nil => intro prev; rfl
  | cons c rest ih =>
    intro prev
    have hlocal : emailLocalChar c = false := ws_not_emailLocal c (h c (by simp))
    simp only [findEmailAux, matchEmailAt, hlocal, Bool.not_false, if_true]
    exact ih (fun x hx => h x (by simp [hx])) (some c)

/-- The phone scan finds nothing in all-whitespace text. -/
theorem findPhoneAux_ws (l : Str) (h : ∀ c ∈ l, isJsWs c = true) :
    findPhoneAux l = none := by
  induction l with
  | nil => rfl
  | cons c rest ih =>
    have hplus : c ≠ '+' := ws_ne_plus c (h c (by simp))
    have hdig : c.isDigit = false := ws_not_digit c (h c (by simp))
    simp only [findPhoneAux, if_neg hplus, matchPhoneCore, hdig,
      Bool.false_eq_true, if_false]
    exact ih (fun x hx => h x (by simp [hx]))

/-! ## Claim theorems -/

/-- C1: on the line block `Experience / Acme Corp / Staff Engineer /
January 2019 - Present / Remote / Shipped the widget.` the engine returns
exactly one experience entry with company "Acme Corp", title
"Staff Engineer", start date "January 2019", end date "Present", location
"Remote" and description "Shipped the widget.". -/
theorem c1_experience_entry :
    (extractBasicInfo c1text).experience =
      [{ title := s2l "Staff Engineer", company := s2l "Acme Corp",
         start_date := s2l "January 2019", end_date := s2l "Present",
         location := some (s2l "Remote"),
         description := some (s2l "Shipped the widget.") }] := by decide

/-- C2: on the Scenario A input the engine returns name "Jane Doe",
headline "Senior Engineer | Builder", location "San Francisco, CA" and the
skills ["Python", "React"] in that order. -/
theorem c2_identity_fields :
    (extractBasicInfo c2text).name = some (s2l "Jane Doe") ∧
    (extractBasicInfo c2text).headline = some (s2l "Senior Engineer | Builder") ∧
    (extractBasicInfo c2text).location = some (s2l "San Francisco, CA") ∧
    (extractBasicInfo c2text).skills = [s2l "Python", s2l "React"] := by decide

/-- C3 (counterexample): an input with no recognized section-header line can
still yield a present name and headline — the name search falls back to the
end of the stream — so it is false that every optional field is absent. -/
theorem c3_counterexample :
    ((cleanLines c3text).all (fun l => !sectionKeywords.contains l)) = true ∧
    (extractBasicInfo c3text).name = some (s2l "John Smith") ∧
    (extractBasicInfo c3text).headline ≠ none := by decide

/-- C3 (amended): for every input in which no line equals a section header,
the location and summary are absent and the skills, experience and education
lists are empty; name, headline, email and phone are not covered by this
guarantee. -/
theorem c3_no_anchor_fields (text : Str)
    (h : ∀ l ∈ cleanLines text, l ∉ sectionKeywords) :
    (extractBasicInfo text).location = none ∧
    (extractBasicInfo text).summary = none ∧
    (extractBasicInfo text).skills = [] ∧
    (extractBasicInfo text).experience = [] ∧
    (extractBasicInfo text).education = [] := by
  have mk : ∀ k : Str, k ∈ sectionKeywords →
      findIdxI k (cleanLines text) = -1 := fun k hk =>
    findIdxI_eq_neg k _ (fun x hx he => h x hx (he ▸ hk))
  have hT := mk (s2l "Top Skills") (by decide)
  have hL := mk (s2l "Languages") (by decide)
  have hS := mk (s2l "Summary") (by decide)
  have hE := mk (s2l "Experience") (by decide)
  have hEd := mk (s2l "Education") (by decide)
  refine ⟨?_, ?_, ?_, ?_, ?_⟩ <;>
    simp only [extractBasicInfo, hT, hL, hS, hE, hEd] <;> rfl

/-- C3 (witness): the amended theorem applied to the concrete header-free
input "hello world". -/
theorem c3_no_anchor_fields_witness :
    (extractBasicInfo (s2l "hello world")).location = none ∧
    (extractBasicInfo (s2l "hello world")).summary = none ∧
    (extractBasicInfo (s2l "hello world")).skills = [] ∧
    (extractBasicInfo (s2l "hello world")).experience = [] ∧
    (extractBasicInfo (s2l "hello world")).education = [] :=
  c3_no_anchor_fields (s2l "hello world") (by decide)

/-- C4: when the Summary anchor is absent, the headline assembly boundary
stays at the Experience anchor even though the location test shrank the
name-search boundary to exclude the location-shaped line: on `c4text` the
line "San Francisco, CA" passes the location test (the search boundary is
2) yet is swallowed into the assembled headline, contradicting the claim
that the two boundaries agree. -/
theorem c4_headline_swallows_location :
    locLineTest (s2l "San Francisco, CA") = true ∧
    headlineEndIdxOf (cleanLines c4text)
      (nameSearchEndOf (cleanLines c4text)
        (findIdxI (s2l "Summary") (cleanLines c4text))
        (findIdxI (s2l "Experience") (cleanLines c4text))) = 2 ∧
    (extractBasicInfo c4text).headline =
      some (s2l "Senior Engineer | Builder San Francisco, CA") ∧
    (extractBasicInfo c4text).location = none := by decide

/-- C5: on every input consisting solely of whitespace characters the engine
returns a profile whose optional fields are all absent and whose list fields
are all empty, without any failure path. -/
theorem c5_whitespace_empty (text : Str) (h : ∀ c ∈ text, isJsWs c = true) :
    extractBasicInfo text =
      { name := none, email := none, phone := none, location := none,
        headline := none, summary := none, skills := [], experience := [],
        education := [] } := by
  have hc : cleanLines text = [] := cleanLines_ws text h
  have he : findEmail text = none := findEmailAux_ws text h none
  have hp : findPhone text = none := findPhoneAux_ws text h
  simp only [extractBasicInfo, hc, he, hp]
  rfl

/-- C5 (witness): the theorem applied to a concrete whitespace-only input. -/
theorem c5_whitespace_empty_witness :
    extractBasicInfo (s2l "  \n\t ") =
      { name := none, email := none, phone := none, location := none,
        headline := none, summary := none, skills := [], experience := [],
        education := [] } :=
  c5_whitespace_empty (s2l "  \n\t ") (by decide)

/-- C6 (counterexample): on the input "1 2 3 4 5" the engine returns that
very string as the phone value although it contains only five digit
characters, refuting the claim that a returned phone always carries at
least eight digits. -/
theorem c6_counterexample :
    (extractBasicInfo c6text).phone = some (s2l "1 2 3 4 5") ∧
    ((s2l "1 2 3 4 5").filter Char.isDigit).length = 5 ∧
    ¬ (8 ≤ ((s2l "1 2 3 4 5").filter Char.isDigit).length) := by decide

/-- C6 (amended): whenever the engine returns a phone value, the matched
substring has at least 9 characters and contains at least 2 digit
characters (the pattern requires a leading and a trailing digit around a
run of at least 7 separator-class characters); an 8-digit minimum is not
enforced. -/
theorem c6_phone_shape (text : Str) (s : Str)
    (h : (extractBasicInfo text).phone = some s) :
    9 ≤ s.length ∧ 2 ≤ (s.filter Char.isDigit).length := by
  simp only [extractBasicInfo] at h
  exact findPhoneAux_shape text s h

/-- C6 (witness): the amended theorem applied at the concrete input
"1 2 3 4 5". -/
theorem c6_phone_shape_witness :
    9 ≤ (s2l "1 2 3 4 5").length ∧
    2 ≤ ((s2l "1 2 3 4 5").filter Char.isDigit).length :=
  c6_phone_shape c6text (s2l "1 2 3 4 5") (by decide)

/-- C7: the indentation cue is lost — the normalizer trims every line before
`reflowText` sees it, so a line that began with a leading space in the raw
text does NOT start a new paragraph; on `c7text` the indented continuation
is merged into the first paragraph instead of opening a second one. -/
theorem c7_indent_cue_lost :
    (extractBasicInfo c7text).summary =
      some (s2l "First line. Indented continuation.") ∧
    (cleanLines c7text).all (fun l => !(l.head? = some ' ')) = true := by decide

/-- C8 (amended): for a date anchor at `i` in the Experience span, with at
least two lead-in lines the company is the line at `i - 2` and the title is
the line at `i - 1` unless that line equals the company line, in which case
the title is "Unknown"; with exactly one lead-in line the company is the
line at `i - 1` and the title is "Unknown". -/
theorem c8_title_company (clean : List Str) (expIdx eduIdx expEnd i : Int)
    (hexp : 0 ≤ expIdx)
    (hE : expEnd = if expIdx < eduIdx then eduIdx else (clean.length : Int))
    (hmem : i ∈ expAnchorsOf clean expIdx expEnd) :
    mkExpEntry clean expIdx expEnd i ∈ experienceListOf clean expIdx eduIdx ∧
    (expIdx + 3 ≤ i →
      (mkExpEntry clean expIdx expEnd i).company = getLine clean (i - 2) ∧
      (mkExpEntry clean expIdx expEnd i).title =
        (if getLine clean (i - 1) = getLine clean (i - 2) then s2l "Unknown"
         else getLine clean (i - 1))) ∧
    (i = expIdx + 2 →
      (mkExpEntry clean expIdx expEnd i).company = getLine clean (i - 1) ∧
      (mkExpEntry clean expIdx expEnd i).title = s2l "Unknown") := by
  refine ⟨?_, ?_, ?_⟩
  · unfold experienceListOf
    rw [if_pos hexp]
    subst hE
    exact List.mem_map_of_mem _ hmem
  · intro h3
    have h2 : expIdx + 2 ≤ i := by omega
    by_cases heq : getLine clean (i - 1) = getLine clean (i - 2)
    · simp [mkExpEntry, h2, h3, heq]
    · simp [mkExpEntry, h2, h3, heq]
  · intro hi
    subst hi
    have h3 : ¬ (expIdx + 3 ≤ expIdx + 2) := by omega
    have h2 : expIdx + 2 ≤ expIdx + 2 := le_refl _
    simp [mkExpEntry, h2, h3]

/-- C8 (witness): the amended theorem applied to the Scenario B experience
block, whose date anchor at index 3 has two lead-in lines. -/
theorem c8_title_company_witness :
    mkExpEntry (cleanLines c1text) 0 6 3 ∈
      experienceListOf (cleanLines c1text) 0 (-1) ∧
    ((0 : Int) + 3 ≤ 3 →
      (mkExpEntry (cleanLines c1text) 0 6 3).company =
        getLine (cleanLines c1text) (3 - 2) ∧
      (mkExpEntry (cleanLines c1text) 0 6 3).title =
        (if getLine (cleanLines c1text) (3 - 1) =
            getLine (cleanLines c1text) (3 - 2) then s2l "Unknown"
         else getLine (cleanLines c1text) (3 - 1))) ∧
    ((3 : Int) = 0 + 2 →
      (mkExpEntry (cleanLines c1text) 0 6 3).company =
        getLine (cleanLines c1text) (3 - 1) ∧
      (mkExpEntry (cleanLines c1text) 0 6 3).title = s2l "Unknown") :=
  c8_title_company (cleanLines c1text) 0 (-1) 6 3 (by decide) (by decide)
    (by decide)

/-- C8 (counterexample): on `c8text` the date anchor at index 3 has two
lead-in lines ("Acme" at 1 and "Acme" at 2), yet the produced title is
"Unknown" instead of the line at index 2, refuting the claim as stated. -/
theorem c8_counterexample :
    expAnchorsOf (cleanLines c8text) 0 4 = [3] ∧
    getLine (cleanLines c8text) 2 = s2l "Acme" ∧
    (extractBasicInfo c8text).experience.map (fun e => e.title) =
      [s2l "Unknown"] ∧
    s2l "Unknown" ≠ s2l "Acme" := by decide

/-- C9: for every input, the returned experience list has at most 20 entries
and the returned education list has at most 10 entries. -/
theorem c9_caps (text : Str) :
    (extractBasicInfo text).experience.length ≤ 20 ∧
    (extractBasicInfo text).education.length ≤ 10 := by
  constructor <;> simp [extractBasicInfo]

/-- C10: whenever the engine returns a location, the Summary anchor sits at
index 2 or later and the location is exactly the line immediately before it;
contrapositively, with no Summary line (or one at index 0 or 1) the location
is absent. -/
theorem c10_location_source (text : Str) (s : Str)
    (h : (extractBasicInfo text).location = some s) :
    2 ≤ summaryIdxOf text ∧
    s = getLine (cleanLines text) (summaryIdxOf text - 1) := by
  simp only [extractBasicInfo] at h
  exact locAndEnd_some _ _ _ _ h

/-- C10 (witness): the theorem applied to `c10text`, whose Summary anchor is
at index 3 and whose location is "San Francisco, CA". -/
theorem c10_location_source_witness :
    2 ≤ summaryIdxOf c10text ∧
    s2l "San Francisco, CA" =
      getLine (cleanLines c10text) (summaryIdxOf c10text - 1) :=
  c10_location_source c10text (s2l "San Francisco, CA") (by decide)
